import Mathlib

/-!
Verification of the core logic of ChiselPDF (`src/main.py`): the page-range
parser `parse_page_ranges` and the page extractor `trim_pdf`.

Strings are modelled as lists of characters (the inputs of interest are
ASCII).  Python's `int(str)` conversion is modelled faithfully for ASCII
strings: surrounding whitespace is stripped, an optional single sign is
allowed, and underscores may separate digits.  Python sets of integers are
modelled as `Finset ℤ`, and `sorted` of a set as `Finset.sort (· ≤ ·)`.
The extractor's file side effects are modelled by explicit fields of the
result structure (`written`, `attemptedWrite`) and possible I/O exceptions
by an explicit fault parameter.
-/

/-- Characters Python's `int()` strips from both ends of its argument
(ASCII whitespace, including the file/group/record/unit separators). -/
def isPyWhitespace (c : Char) : Bool :=
  c = ' ' ∨ c = '\t' ∨ c = '\n' ∨ c = '\r' ∨ c = Char.ofNat 11 ∨ c = Char.ofNat 12 ∨
    c = Char.ofNat 28 ∨ c = Char.ofNat 29 ∨ c = Char.ofNat 30 ∨ c = Char.ofNat 31

/-- Strip leading and trailing Python whitespace. -/
def pyStrip (l : List Char) : List Char :=
  ((l.dropWhile isPyWhitespace).reverse.dropWhile isPyWhitespace).reverse

/-- Digit-string value accumulator for Python's `int()`: digits, with single
underscores allowed between digits (never leading, trailing or doubled). -/
def pyDigitsValAux : Nat → List Char → Option Nat
  | acc, [] => some acc
  | acc, c :: rest =>
    if c.isDigit then pyDigitsValAux (10 * acc + (c.toNat - 48)) rest
    else if c = '_' then
      match rest with
      | [] => none
      | d :: rest2 =>
        if d.isDigit then pyDigitsValAux (10 * acc + (d.toNat - 48)) rest2 else none
    else none

/-- Value of a non-empty digit string (underscores allowed between digits). -/
def pyDigitsVal : List Char → Option Nat
  | [] => none
  | c :: rest => if c.isDigit then pyDigitsValAux (c.toNat - 48) rest else none

/-- Python `int(s)` for an ASCII string: strip whitespace, optional single
sign `+`/`-`, then a digit string with underscores between digits;
`none` when Python would raise `ValueError`. -/
def pythonIntParse (l : List Char) : Option Int :=
  match pyStrip l with
  | [] => none
  | c :: rest =>
    if c = '+' then (pyDigitsVal rest).map Int.ofNat
    else if c = '-' then (pyDigitsVal rest).map (fun n => -Int.ofNat n)
    else (pyDigitsVal (c :: rest)).map Int.ofNat

/-- Python `s.split(",")` on a character list. -/
def splitComma : List Char → List (List Char)
  | [] => [[]]
  | c :: rest =>
    if c = ',' then [] :: splitComma rest
    else
      match splitComma rest with
      | [] => [[c]]
      | t :: ts => (c :: t) :: ts

/-- The loop body of `parse_page_ranges` for one non-empty token `part`
(src/main.py lines 31-47): if the token contains a hyphen, split at the
first hyphen, parse both sides as integers, require `start ≤ end` and
contribute the inclusive range; otherwise parse the token as one integer.
Errors carry the offending token, as the raised `ValueError` messages do. -/
def parseToken (part : List Char) : Except (List Char) (Finset Int) :=
  if part.contains '-' then
    match pythonIntParse (part.takeWhile fun c => c ≠ '-'),
          pythonIntParse ((part.dropWhile fun c => c ≠ '-').drop 1) with
    | some s, some e => if s > e then .error part else .ok (Finset.Icc s e)
    | _, _ => .error part
  else
    match pythonIntParse part with
    | some n => .ok {n}
    | none => .error part

/-- The token loop of `parse_page_ranges` (src/main.py lines 28-47):
empty tokens are skipped, and the first failing token aborts the parse. -/
def parse_core : List (List Char) → Finset Int → Except (List Char) (Finset Int)
  | [], pages => .ok pages
  | part :: rest, pages =>
    if part = [] then parse_core rest pages
    else
      match parseToken part with
      | .ok s => parse_core rest (pages ∪ s)
      | .error t => .error t

/-- The token list `parse_page_ranges` iterates over:
`page_input.replace(" ", "").split(",")` (src/main.py line 26). -/
def tokensOf (input : List Char) : List (List Char) :=
  splitComma (input.filter fun c => c ≠ ' ')

/-- `parse_page_ranges` (src/main.py lines 20-49): remove spaces, split on
commas, process each token, and return `sorted(pages)`; a failure carries
the offending token (as embedded in the `ValueError` message). -/
def parse_page_ranges (input : String) : Except String (List Int) :=
  match parse_core (tokensOf input.data) ∅ with
  | .ok pages => .ok (pages.sort (fun a b => a ≤ b))
  | .error t => .error (String.mk t)

/-- Possible I/O exceptions inside `trim_pdf`'s `try` block: none, a failure
while reading the source (`PdfReader`), a failure while copying a page into
the writer (`add_page`), or a failure while opening/writing the destination. -/
inductive Fault where
  | noFault
  | readFail
  | constructFail
  | writeFail
  deriving DecidableEq

/-- Result of `trim_pdf`.  `success`, `message` and `valid_pages` are the
returned tuple (src/main.py line 62); `invalid_pages` is the skipped-page
list the function computes (spec: `skippedPages`); `written` is the document
content at the destination after a completed write (`none` when no complete
write happened); `attemptedWrite` records whether `open(output_path, "wb")`
was reached. -/
structure TrimResult (α : Type) where
  success : Bool
  message : String
  valid_pages : List Int
  invalid_pages : List Int
  written : Option (List α)
  attemptedWrite : Bool
  deriving DecidableEq

/-- The validation loop of `trim_pdf` (src/main.py lines 71-79): returns the
writer's page list, `valid_pages` and `invalid_pages`, in input order. -/
def trimLoop {α : Type} [Inhabited α] (source : List α) (total : Int) :
    List Int → List α × List Int × List Int
  | [] => ([], [], [])
  | p :: rest =>
    let r := trimLoop source total rest
    if 1 ≤ p ∧ p ≤ total then
      ((source.getD (p - 1).toNat default) :: r.1, p :: r.2.1, r.2.2)
    else
      (r.1, r.2.1, p :: r.2.2)

/-- `trim_pdf` (src/main.py lines 52-95).  The source document is its page
list; `fault` injects an exception at the corresponding step (`constructFail`
and `writeFail` can only fire when the step is reached, i.e. when at least
one valid page exists), and `emsg` is the text `str(e)` of that exception. -/
def trim_pdf {α : Type} [Inhabited α] (source : List α) (page_numbers : List Int)
    (fault : Fault) (emsg : String) : TrimResult α :=
  if fault = Fault.readFail then
    ⟨false, "Error processing PDF: " ++ emsg, [], [], none, false⟩
  else
    let total : Int := (source.length : Int)
    let r := trimLoop source total page_numbers
    if fault = Fault.constructFail ∧ r.2.1 ≠ [] then
      ⟨false, "Error processing PDF: " ++ emsg, [], [], none, false⟩
    else if r.2.1 = [] then
      ⟨false, "No valid pages to include in the output PDF.", [], r.2.2, none, false⟩
    else if fault = Fault.writeFail then
      ⟨false, "Error processing PDF: " ++ emsg, [], [], none, true⟩
    else
      ⟨true,
        (if r.2.2 = [] then
          "Successfully created PDF with " ++ toString r.2.1.length ++ " pages"
        else
          "Successfully created PDF with " ++ toString r.2.1.length ++ " pages" ++
            "\n\nSkipped invalid pages: " ++ toString r.2.2 ++
            " (PDF has " ++ toString total ++ " pages)"),
        r.2.1, r.2.2, some r.1, true⟩

/-- The full page list `[1..N]` of an `N`-page document, as page numbers. -/
def fullRange (n : Nat) : List Int :=
  (List.range n).map (fun (i : Nat) => ((i : Int) + 1))

/-! ### Helper lemmas about the parser -/

theorem mem_pyStrip {a : Char} {l : List Char} (h : a ∈ pyStrip l) : a ∈ l := by
  unfold pyStrip at h
  rw [List.mem_reverse] at h
  have h1 : a ∈ (l.dropWhile isPyWhitespace).reverse :=
    (List.dropWhile_sublist _).subset h
  rw [List.mem_reverse] at h1
  exact (List.dropWhile_sublist _).subset h1

theorem pythonIntParse_nonneg {l : List Char} {n : Int}
    (hm : '-' ∉ l) (h : pythonIntParse l = some n) : 0 ≤ n := by
  unfold pythonIntParse at h
  cases hs : pyStrip l with
  | nil => rw [hs] at h; simp at h
  | cons c rest =>
    have hcl : c ∈ l := mem_pyStrip (hs ▸ List.mem_cons_self c rest)
    have hneg : ¬ c = '-' := fun hc => hm (hc ▸ hcl)
    rw [hs] at h
    by_cases hp : c = '+'
    · simp only [hp, if_pos] at h
      obtain ⟨m, _, hmn⟩ := Option.map_eq_some'.mp h
      exact hmn ▸ Int.ofNat_nonneg m
    · simp only [hp, hneg, if_neg, ite_false] at h
      obtain ⟨m, _, hmn⟩ := Option.map_eq_some'.mp h
      exact hmn ▸ Int.ofNat_nonneg m

theorem parseToken_ok_nonneg {t : List Char} {s : Finset Int}
    (h : parseToken t = .ok s) : ∀ x ∈ s, 0 ≤ x := by
  unfold parseToken at h
  by_cases hc : t.contains '-'
  · rw [if_pos hc] at h
    cases h1 : pythonIntParse (t.takeWhile fun c => c ≠ '-') with
    | none => rw [h1] at h; simp at h
    | some a =>
      cases h2 : pythonIntParse ((t.dropWhile fun c => c ≠ '-').drop 1) with
      | none => rw [h1, h2] at h; simp at h
      | some b =>
        rw [h1, h2] at h
        by_cases hab : a > b
        · simp [hab] at h
        · simp only [hab, ite_false] at h
          have hs : Finset.Icc a b = s := by
            cases h; rfl
          have ha : (0 : Int) ≤ a := by
            refine pythonIntParse_nonneg ?_ h1
            intro hmem
            have := List.mem_takeWhile_imp hmem
            simp at this
          intro x hx
          rw [← hs, Finset.mem_Icc] at hx
          omega
  · rw [if_neg hc] at h
    cases h1 : pythonIntParse t with
    | none => rw [h1] at h; simp at h
    | some a =>
      rw [h1] at h
      have hs : ({a} : Finset Int) = s := by
        cases h; rfl
      have hmem : '-' ∉ t := by
        intro hm
        exact hc (by simpa using hm)
      have h0 := pythonIntParse_nonneg hmem h1
      intro x hx
      rw [← hs, Finset.mem_singleton] at hx
      omega

theorem parseToken_error_eq {t u : List Char} (h : parseToken t = .error u) : u = t := by
  unfold parseToken at h
  by_cases hc : t.contains '-'
  · rw [if_pos hc] at h
    cases h1 : pythonIntParse (t.takeWhile fun c => c ≠ '-') with
    | none => rw [h1] at h; simp at h; exact h.symm
    | some a =>
      cases h2 : pythonIntParse ((t.dropWhile fun c => c ≠ '-').drop 1) with
      | none => rw [h1, h2] at h; simp at h; exact h.symm
      | some b =>
        rw [h1, h2] at h
        by_cases hab : a > b
        · simp only [hab, ite_true] at h
          cases h; rfl
        · simp only [hab, ite_false] at h
          simp at h
  · rw [if_neg hc] at h
    cases h1 : pythonIntParse t with
    | none => rw [h1] at h; simp at h; exact h.symm
    | some a => rw [h1] at h; simp at h

/-- The set of integers a token contributes on success (empty on failure). -/
def tokenSets (parts : List (List Char)) : Finset Int :=
  parts.foldr (fun t s => (parseToken t).toOption.getD ∅ ∪ s) ∅

theorem parseToken_nil : parseToken [] = .error [] := rfl

theorem mem_tokenSets {x : Int} (parts : List (List Char)) :
    x ∈ tokenSets parts ↔ ∃ t ∈ parts, ∃ s, parseToken t = .ok s ∧ x ∈ s := by
  induction parts with
  | nil => simp [tokenSets]
  | cons part rest ih =>
    simp only [tokenSets, List.foldr_cons, Finset.mem_union] at *
    rw [ih]
    constructor
    · rintro (hx | ⟨t, ht, s, hts, hxs⟩)
      · cases hpt : parseToken part with
        | ok s =>
          exact ⟨part, List.mem_cons_self _ _, s, hpt, by rw [hpt] at hx; simpa using hx⟩
        | error u =>
          rw [hpt] at hx; simp [Except.toOption] at hx
      · exact ⟨t, List.mem_cons_of_mem _ ht, s, hts, hxs⟩
    · rintro ⟨t, ht, s, hts, hxs⟩
      rcases List.mem_cons.mp ht with rfl | ht
      · left; rw [hts]; simpa using hxs
      · right; exact ⟨t, ht, s, hts, hxs⟩

theorem parse_core_ok_nonneg :
    ∀ (parts : List (List Char)) (acc F : Finset Int),
      parse_core parts acc = .ok F → (∀ x ∈ acc, 0 ≤ x) → ∀ x ∈ F, 0 ≤ x := by
  intro parts
  induction parts with
  | nil =>
    intro acc F h hacc
    simp only [parse_core] at h
    cases h
    exact hacc
  | cons part rest ih =>
    intro acc F h hacc
    simp only [parse_core] at h
    by_cases hp : part = []
    · rw [if_pos hp] at h
      exact ih acc F h hacc
    · rw [if_neg hp] at h
      cases ht : parseToken part with
      | error u => rw [ht] at h; simp at h
      | ok s =>
        rw [ht] at h
        simp only at h
        refine ih (acc ∪ s) F h ?_
        intro x hx
        rcases Finset.mem_union.mp hx with hx | hx
        · exact hacc x hx
        · exact parseToken_ok_nonneg ht x hx

theorem parse_core_ok_of_good :
    ∀ (parts : List (List Char)) (acc : Finset Int),
      (∀ t ∈ parts, t = [] ∨ ∃ s, parseToken t = .ok s) →
      parse_core parts acc = .ok (acc ∪ tokenSets parts) := by
  intro parts
  induction parts with
  | nil =>
    intro acc _
    simp [parse_core, tokenSets]
  | cons part rest ih =>
    intro acc hgood
    simp only [parse_core]
    by_cases hp : part = []
    · rw [if_pos hp]
      have : tokenSets (part :: rest) = tokenSets rest := by
        subst hp
        simp [tokenSets, parseToken_nil, Except.toOption]
      rw [this]
      exact ih acc fun t ht => hgood t (List.mem_cons_of_mem _ ht)
    · rw [if_neg hp]
      rcases hgood part (List.mem_cons_self _ _) with rfl | ⟨s, hs⟩
      · exact absurd rfl hp
      · rw [hs]
        simp only
        have : tokenSets (part :: rest) = s ∪ tokenSets rest := by
          simp [tokenSets, hs, Except.toOption]
        rw [this, ← Finset.union_assoc]
        exact ih (acc ∪ s) fun t ht => hgood t (List.mem_cons_of_mem _ ht)

theorem parse_core_error_of_bad :
    ∀ (parts : List (List Char)) (acc : Finset Int),
      (∃ t ∈ parts, t ≠ [] ∧ parseToken t = .error t) →
      ∃ t ∈ parts, t ≠ [] ∧ parseToken t = .error t ∧
        parse_core parts acc = .error t := by
  intro parts
  induction parts with
  | nil =>
    intro acc h
    simp at h
  | cons part rest ih =>
    intro acc hbad
    by_cases hp : part = []
    · obtain ⟨t, ht, hne, herr⟩ := hbad
      have htr : t ∈ rest := by
        rcases List.mem_cons.mp ht with rfl | h
        · exact absurd hp hne
        · exact h
      obtain ⟨t', ht', hne', herr', hcore⟩ := ih acc ⟨t, htr, hne, herr⟩
      refine ⟨t', List.mem_cons_of_mem _ ht', hne', herr', ?_⟩
      simp only [parse_core]
      rw [if_pos hp]
      exact hcore
    · cases hpt : parseToken part with
      | error u =>
        have hu : u = part := parseToken_error_eq hpt
        refine ⟨part, List.mem_cons_self _ _, hp, hu ▸ hpt, ?_⟩
        simp only [parse_core]
        rw [if_neg hp, hpt, hu]
      | ok s =>
        obtain ⟨t, ht, hne, herr⟩ := hbad
        have htr : t ∈ rest := by
          rcases List.mem_cons.mp ht with rfl | h
          · rw [hpt] at herr; cases herr
          · exact h
        obtain ⟨t', ht', hne', herr', hcore⟩ := ih (acc ∪ s) ⟨t, htr, hne, herr⟩
        refine ⟨t', List.mem_cons_of_mem _ ht', hne', herr', ?_⟩
        simp only [parse_core]
        rw [if_neg hp, hpt]
        exact hcore

/-! ### Helper lemmas about the extractor -/

theorem trimLoop_eq {α : Type} [Inhabited α] (source : List α) (total : Int) (l : List Int) :
    trimLoop source total l =
      ((l.filter fun p => decide (1 ≤ p ∧ p ≤ total)).map
          (fun p => source.getD (p - 1).toNat default),
        l.filter fun p => decide (1 ≤ p ∧ p ≤ total),
        l.filter fun p => !decide (1 ≤ p ∧ p ≤ total)) := by
  induction l with
  | nil => rfl
  | cons p rest ih =>
    simp only [trimLoop, ih]
    by_cases h : 1 ≤ p ∧ p ≤ total
    · simp [h, List.filter_cons]
    · have h2 : p < 1 ∨ total < p := by omega
      simp [h, h2, List.filter_cons]

theorem trim_pdf_noFault_valid {α : Type} [Inhabited α] (source : List α)
    (pages : List Int) (emsg : String) :
    (trim_pdf source pages Fault.noFault emsg).valid_pages =
      pages.filter fun p => decide (1 ≤ p ∧ p ≤ (source.length : Int)) := by
  simp only [trim_pdf, trimLoop_eq]
  rw [if_neg (by simp), if_neg (by simp)]
  by_cases hval : (pages.filter fun p => decide (1 ≤ p ∧ p ≤ (source.length : Int))) = []
  · rw [if_pos hval, hval]
  · rw [if_neg hval, if_neg (by simp)]

theorem trim_pdf_noFault_invalid {α : Type} [Inhabited α] (source : List α)
    (pages : List Int) (emsg : String) :
    (trim_pdf source pages Fault.noFault emsg).invalid_pages =
      pages.filter fun p => !decide (1 ≤ p ∧ p ≤ (source.length : Int)) := by
  simp only [trim_pdf, trimLoop_eq]
  rw [if_neg (by simp), if_neg (by simp)]
  by_cases hval : (pages.filter fun p => decide (1 ≤ p ∧ p ≤ (source.length : Int))) = []
  · rw [if_pos hval]
  · rw [if_neg hval, if_neg (by simp)]

theorem trim_pdf_noFault_written {α : Type} [Inhabited α] (source : List α)
    (pages : List Int) (emsg : String)
    (hne : (pages.filter fun p => decide (1 ≤ p ∧ p ≤ (source.length : Int))) ≠ []) :
    (trim_pdf source pages Fault.noFault emsg).written =
      some ((pages.filter fun p => decide (1 ≤ p ∧ p ≤ (source.length : Int))).map
        (fun p => source.getD (p - 1).toNat default)) := by
  simp only [trim_pdf, trimLoop_eq]
  rw [if_neg (by simp), if_neg (by simp), if_neg hne, if_neg (by simp)]

theorem map_getD_range {α : Type} [Inhabited α] (l : List α) :
    (List.range l.length).map (fun i => l.getD i default) = l := by
  induction l with
  | nil => rfl
  | cons a t ih =>
    rw [List.length_cons, List.range_succ_eq_map, List.map_cons, List.map_map]
    simp only [Function.comp_def, List.getD_cons_succ, List.getD_cons_zero]
    rw [ih]

/-! ### Claim theorems: the parser -/

unseal List.merge List.mergeSort in
/-- C2 counterexample: the single token "-7" is a valid integer in Python's
sense (`int("-7")` succeeds), yet `parse_page_ranges "-7"` fails with an
error naming "-7" instead of returning `[-7]`, because the hyphen sends the
token into the range branch where the empty start substring fails.  So the
claim's universal statement is false as stated. -/
theorem C2_counterexample :
    pythonIntParse "-7".data = some (-7) ∧
    tokensOf "-7".data = ["-7".data] ∧
    parse_page_ranges "-7" = .error "-7" :=
  ⟨rfl, rfl, rfl⟩

unseal List.merge List.mergeSort in
/-- C2 (amended): for every expression in which each comma-separated token
(after space removal, empty tokens discarded) is accepted by the code's
token rule — no hyphen and a valid integer, or a hyphen split at its first
occurrence into two valid integers with start ≤ end — parse succeeds and
returns the deduplicated ascending-sorted list of all integers denoted by
the tokens; in particular the four quoted examples hold. -/
theorem C2_parse_success :
    (∀ input : String,
      (∀ t ∈ tokensOf input.data, t = [] ∨ ∃ s, parseToken t = .ok s) →
      ∃ l, parse_page_ranges input = .ok l ∧ l.Sorted (· < ·) ∧
        (∀ n : Int, n ∈ l ↔ ∃ t ∈ tokensOf input.data, ∃ s, parseToken t = .ok s ∧ n ∈ s)) ∧
    parse_page_ranges "1-3,5,6-9,11" = .ok [1,2,3,5,6,7,8,9,11] ∧
    parse_page_ranges "3,1,2" = .ok [1,2,3] ∧
    parse_page_ranges "" = .ok [] ∧
    parse_page_ranges "1,,3" = .ok [1,3] := by
  refine ⟨?_, rfl, rfl, rfl, rfl⟩
  intro input hgood
  have hc := parse_core_ok_of_good (tokensOf input.data) ∅ hgood
  refine ⟨Finset.sort (fun a b => a ≤ b) (∅ ∪ tokenSets (tokensOf input.data)), ?_, ?_, ?_⟩
  · unfold parse_page_ranges
    rw [hc]
  · exact Finset.sort_sorted_lt _
  · intro n
    rw [Finset.mem_sort]
    simp only [Finset.empty_union]
    exact mem_tokenSets _

/-- C2 witness: the general statement applied to the concrete input "2,4". -/
theorem C2_parse_success_witness :
    ∃ l, parse_page_ranges "2,4" = .ok l ∧ l.Sorted (· < ·) ∧
      (∀ n : Int, n ∈ l ↔ ∃ t ∈ tokensOf "2,4".data, ∃ s, parseToken t = .ok s ∧ n ∈ s) := by
  refine C2_parse_success.1 "2,4" ?_
  intro t ht
  rw [show tokensOf "2,4".data = [['2'], ['4']] from rfl] at ht
  rcases List.mem_cons.mp ht with rfl | ht2
  · exact Or.inr ⟨{2}, rfl⟩
  rcases List.mem_cons.mp ht2 with rfl | ht3
  · exact Or.inr ⟨{4}, rfl⟩
  · simp at ht3

unseal List.merge List.mergeSort in
/-- C3 counterexample: the claim says a token with more than one hyphen
deterministically fails, but the single token "0--0" has two hyphens and
parse succeeds on it with [0] (split at the first hyphen gives start "0"
and end "-0", both of which Python's int accepts, and 0 ≤ 0). -/
theorem C3_counterexample :
    "0--0".data.count '-' = 2 ∧
    tokensOf "0--0".data = ["0--0".data] ∧
    parse_page_ranges "0--0" = .ok [0] :=
  ⟨rfl, rfl, rfl⟩

/-- C3 (amended): parse fails with an error naming the offending token
whenever some non-empty token fails the code's token rule; a hyphen-free
token that is not a valid integer fails, a hyphenated token whose start
integer exceeds its end integer fails, and a hyphenated token whose
remainder after the first hyphen is not a valid integer fails (which is why
"1-2-3" fails: the remainder "2-3" fails integer parsing); tokens with more
than one hyphen whose remainder does parse, such as "0--0", instead follow
the range rule.  No partial result accompanies an error: the result is the
bare offending token. -/
theorem C3_malformed_errors :
    (∀ input : String,
      (∃ t ∈ tokensOf input.data, t ≠ [] ∧ parseToken t = .error t) →
      ∃ t ∈ tokensOf input.data, t ≠ [] ∧ parseToken t = .error t ∧
        parse_page_ranges input = .error (String.mk t)) ∧
    (∀ t : List Char, t.contains '-' = false → pythonIntParse t = none →
      parseToken t = .error t) ∧
    (∀ (t : List Char) (a b : Int), t.contains '-' = true →
      pythonIntParse (t.takeWhile fun c => c ≠ '-') = some a →
      pythonIntParse ((t.dropWhile fun c => c ≠ '-').drop 1) = some b →
      a > b → parseToken t = .error t) ∧
    (∀ t : List Char, t.contains '-' = true →
      pythonIntParse ((t.dropWhile fun c => c ≠ '-').drop 1) = none →
      parseToken t = .error t) ∧
    parse_page_ranges "abc" = .error "abc" ∧
    parse_page_ranges "5-2" = .error "5-2" ∧
    parse_page_ranges "1-2-3" = .error "1-2-3" := by
  refine ⟨?_, ?_, ?_, ?_, rfl, rfl, rfl⟩
  · intro input hbad
    obtain ⟨t, ht, hne, herr, hcore⟩ := parse_core_error_of_bad (tokensOf input.data) ∅ hbad
    refine ⟨t, ht, hne, herr, ?_⟩
    unfold parse_page_ranges
    rw [hcore]
  · intro t hcont hparse
    unfold parseToken
    rw [if_neg (by rw [hcont]; exact Bool.false_ne_true), hparse]
  · intro t a b hcont h1 h2 hab
    unfold parseToken
    rw [if_pos hcont, h1, h2]
    simp [hab]
  · intro t hcont h2
    unfold parseToken
    rw [if_pos hcont, h2]
    cases h1 : pythonIntParse (t.takeWhile fun c => c ≠ '-') <;> rfl

/-- C3 witness: the general failure statement applied to "abc". -/
theorem C3_malformed_errors_witness :
    ∃ t ∈ tokensOf "abc".data, t ≠ [] ∧ parseToken t = .error t ∧
      parse_page_ranges "abc" = .error (String.mk t) := by
  refine C3_malformed_errors.1 "abc" ⟨"abc".data, ?_, ?_, rfl⟩
  · rw [show tokensOf "abc".data = ["abc".data] from rfl]
    exact List.mem_cons_self _ _
  · simp

/-- C7 counterexample: the token "-5" denotes a negative integer
(`int("-5")` = -5), but parse does not accept it syntactically: the hyphen
sends it into the range branch and it fails with an error naming "-5". -/
theorem C7_counterexample :
    pythonIntParse "-5".data = some (-5) ∧
    parse_page_ranges "-5" = .error "-5" :=
  ⟨rfl, rfl⟩

unseal List.merge List.mergeSort in
/-- C7 (amended): a token denoting zero (e.g. "0") is syntactically
accepted — any hyphen-free token whose integer value is n is accepted and
its value is necessarily ≥ 0 — while a negative integer written with a
leading hyphen, such as "-5", fails with an error naming the token; any
requested page number ≤ 0 is later placed in the skipped list by the
extractor against any document. -/
theorem C7_nonpositive_pages :
    parse_page_ranges "0" = .ok [0] ∧
    (∀ (t : List Char) (n : Int), '-' ∉ t → pythonIntParse t = some n →
      parseToken t = .ok {n} ∧ 0 ≤ n) ∧
    parse_page_ranges "-5" = .error "-5" ∧
    (∀ (α : Type) [Inhabited α] (source : List α) (pages : List Int) (emsg : String)
      (p : Int), p ∈ pages → p ≤ 0 →
      p ∈ (trim_pdf source pages Fault.noFault emsg).invalid_pages) := by
  refine ⟨rfl, ?_, rfl, ?_⟩
  · intro t n hm hparse
    refine ⟨?_, pythonIntParse_nonneg hm hparse⟩
    unfold parseToken
    rw [if_neg ?_, hparse]
    intro hc
    exact hm (by simpa using hc)
  · intro α _ source pages emsg p hp hple
    rw [trim_pdf_noFault_invalid]
    rw [List.mem_filter]
    refine ⟨hp, ?_⟩
    simp only [Bool.not_eq_true']
    simp only [decide_eq_false_iff_not]
    intro hcon
    omega

/-- C7 witness: the zero token "0" is accepted with value 0, and the page
number 0 lands in the skipped list against a one-page document. -/
theorem C7_nonpositive_pages_witness :
    (parseToken "0".data = .ok {0} ∧ (0 : Int) ≤ 0) ∧
    (0 : Int) ∈ (trim_pdf ([5] : List Int) [0] Fault.noFault "").invalid_pages :=
  ⟨C7_nonpositive_pages.2.1 "0".data 0 (by decide) rfl,
   C7_nonpositive_pages.2.2.2 Int [5] [0] "" 0 (by simp) (by decide)⟩

/-- Modelled from the spec: removal of every whitespace character (spaces,
tabs, newlines, ...) from the expression, as the spec's step 1 words it;
compared against the code, which removes only the space character. -/
def removeAllWhitespace (l : List Char) : List Char :=
  l.filter fun c => !isPyWhitespace c

unseal List.merge List.mergeSort in
/-- C8 counterexample: for the expression "1<TAB>2" parse fails (the tab
survives space removal and sits between two digits, so `int` rejects the
token), while parse of the same expression with every whitespace character
deleted returns [12]; hence parse is not equivalent to whitespace-free
parsing, only to space-free parsing. -/
theorem C8_counterexample :
    removeAllWhitespace "1\t2".data = "12".data ∧
    parse_page_ranges "1\t2" = .error "1\t2" ∧
    parse_page_ranges "12" = .ok [12] ∧
    parse_page_ranges "1\t2" ≠
      parse_page_ranges (String.mk (removeAllWhitespace "1\t2".data)) := by
  refine ⟨rfl, rfl, rfl, ?_⟩
  rw [show parse_page_ranges "1\t2" = .error "1\t2" from rfl]
  rw [show String.mk (removeAllWhitespace "1\t2".data) = "12" from rfl]
  rw [show parse_page_ranges "12" = .ok [12] from rfl]
  simp

/-- C8 (amended): parse removes exactly the space characters before
splitting, so parse(e) equals parse of e with every space character (not
every whitespace character) deleted. -/
theorem C8_space_removal (input : String) :
    parse_page_ranges input =
      parse_page_ranges (String.mk (input.data.filter fun c => c ≠ ' ')) := by
  unfold parse_page_ranges tokensOf
  simp only [List.filter_filter]
  simp only [Bool.and_self]

unseal List.merge List.mergeSort in
/-- C9 counterexample: parse accepts "0" and returns [0], whose element 0
violates the claimed invariant that every element is at least 1. -/
theorem C9_counterexample :
    parse_page_ranges "0" = .ok [0] ∧ (0 : Int) ∈ [(0 : Int)] ∧ ¬ (1 ≤ (0 : Int)) :=
  ⟨rfl, by simp, by decide⟩

/-- C9 (amended): every successful parse result is strictly increasing
(hence ascending and duplicate-free), and every element is at least 0 —
not at least 1, since "0" parses to [0]; negative elements are impossible. -/
theorem C9_pageset_invariant (input : String) (l : List Int)
    (h : parse_page_ranges input = .ok l) :
    l.Sorted (· < ·) ∧ ∀ x ∈ l, 0 ≤ x := by
  unfold parse_page_ranges at h
  cases hc : parse_core (tokensOf input.data) ∅ with
  | error t => rw [hc] at h; simp at h
  | ok F =>
    rw [hc] at h
    simp only at h
    cases h
    constructor
    · exact Finset.sort_sorted_lt F
    · intro x hx
      rw [Finset.mem_sort] at hx
      exact parse_core_ok_nonneg _ _ _ hc (by simp) x hx

unseal List.merge List.mergeSort in
/-- C9 witness: the invariant applied to the parse of "3,1,2". -/
theorem C9_pageset_invariant_witness :
    ([1, 2, 3] : List Int).Sorted (· < ·) ∧ ∀ x ∈ ([1, 2, 3] : List Int), 0 ≤ x :=
  C9_pageset_invariant "3,1,2" [1, 2, 3] rfl

unseal List.merge List.mergeSort in
/-- C10: parse accepts Python's extended integer-literal syntax: a leading
plus sign ("+5" parses to [5]), underscores between digits ("1_0" parses to
[10]), and surrounding whitespace other than the space character inside a
token ("1<TAB>" parses to [1]); none raises an error. -/
theorem C10_extended_integer_syntax :
    parse_page_ranges "+5" = .ok [5] ∧
    parse_page_ranges "1_0" = .ok [10] ∧
    parse_page_ranges "1\t" = .ok [1] :=
  ⟨rfl, rfl, rfl⟩

/-! ### Claim theorems: the extractor -/

/-- C1: for every ascending duplicate-free requested list S and every source
document, the extractor's included list is exactly the in-range elements of
S in ascending order, the skipped list is exactly the remaining elements of
S in ascending order, and the two lists together are a permutation of S. -/
theorem C1_included_skipped_partition {α : Type} [Inhabited α] (source : List α)
    (S : List Int) (emsg : String) (hS : S.Sorted (· < ·)) :
    (trim_pdf source S Fault.noFault emsg).valid_pages =
      (S.filter fun p => decide (1 ≤ p ∧ p ≤ (source.length : Int))) ∧
    (trim_pdf source S Fault.noFault emsg).invalid_pages =
      (S.filter fun p => !decide (1 ≤ p ∧ p ≤ (source.length : Int))) ∧
    (trim_pdf source S Fault.noFault emsg).valid_pages.Sorted (· < ·) ∧
    (trim_pdf source S Fault.noFault emsg).invalid_pages.Sorted (· < ·) ∧
    ((trim_pdf source S Fault.noFault emsg).valid_pages ++
      (trim_pdf source S Fault.noFault emsg).invalid_pages).Perm S := by
  refine ⟨trim_pdf_noFault_valid source S emsg, trim_pdf_noFault_invalid source S emsg,
    ?_, ?_, ?_⟩
  · rw [trim_pdf_noFault_valid]
    exact hS.filter _
  · rw [trim_pdf_noFault_invalid]
    exact hS.filter _
  · rw [trim_pdf_noFault_valid, trim_pdf_noFault_invalid]
    exact List.filter_append_perm _ S

/-- C1 witness: the partition applied to S = [0, 2, 4] against a three-page
document. -/
theorem C1_included_skipped_partition_witness :
    (trim_pdf ([10, 20, 30] : List Int) [0, 2, 4] Fault.noFault "").valid_pages =
      (([0, 2, 4] : List Int).filter fun p =>
        decide (1 ≤ p ∧ p ≤ (([10, 20, 30] : List Int).length : Int))) ∧
    (trim_pdf ([10, 20, 30] : List Int) [0, 2, 4] Fault.noFault "").invalid_pages =
      (([0, 2, 4] : List Int).filter fun p =>
        !decide (1 ≤ p ∧ p ≤ (([10, 20, 30] : List Int).length : Int))) ∧
    (trim_pdf ([10, 20, 30] : List Int) [0, 2, 4] Fault.noFault "").valid_pages.Sorted (· < ·) ∧
    (trim_pdf ([10, 20, 30] : List Int) [0, 2, 4] Fault.noFault "").invalid_pages.Sorted (· < ·) ∧
    ((trim_pdf ([10, 20, 30] : List Int) [0, 2, 4] Fault.noFault "").valid_pages ++
      (trim_pdf ([10, 20, 30] : List Int) [0, 2, 4] Fault.noFault "").invalid_pages).Perm
      [0, 2, 4] :=
  C1_included_skipped_partition [10, 20, 30] [0, 2, 4] "" (by decide)

/-- C4: when the included list is non-empty, the written output document is
exactly the source pages at the 1-indexed included positions, in order; in
particular extracting the full list [1..N] from a non-empty N-page document
writes a document equal to the source. -/
theorem C4_output_is_selected_pages {α : Type} [Inhabited α] (source : List α)
    (pages : List Int) (emsg : String) :
    ((trim_pdf source pages Fault.noFault emsg).valid_pages ≠ [] →
      (trim_pdf source pages Fault.noFault emsg).written =
        some ((trim_pdf source pages Fault.noFault emsg).valid_pages.map
          (fun p => source.getD (p - 1).toNat default))) ∧
    (0 < source.length →
      (trim_pdf source (fullRange source.length) Fault.noFault emsg).written =
        some source) := by
  constructor
  · intro hne
    rw [trim_pdf_noFault_valid] at hne ⊢
    exact trim_pdf_noFault_written source pages emsg hne
  · intro hlen
    have hall : ((fullRange source.length).filter fun p =>
        decide (1 ≤ p ∧ p ≤ (source.length : Int))) = fullRange source.length := by
      refine List.filter_eq_self.mpr ?_
      intro p hp
      rw [fullRange, List.mem_map] at hp
      obtain ⟨i, hi, rfl⟩ := hp
      rw [List.mem_range] at hi
      simp only [decide_eq_true_eq]
      omega
    have hne : ((fullRange source.length).filter fun p =>
        decide (1 ≤ p ∧ p ≤ (source.length : Int))) ≠ [] := by
      rw [hall]
      have hlen2 : (fullRange source.length).length = source.length := by
        rw [fullRange, List.length_map, List.length_range]
      intro hcon
      rw [hcon] at hlen2
      simp at hlen2
      omega
    rw [trim_pdf_noFault_written source _ emsg hne, hall]
    congr 1
    rw [fullRange, List.map_map]
    have hfun : ((fun p : Int => source.getD (p - 1).toNat default) ∘
        fun i : Nat => ((i : Int) + 1)) = fun i : Nat => source.getD i default := by
      funext i
      simp only [Function.comp_apply]
      congr 1
      omega
    rw [hfun]
    exact map_getD_range source

/-- C4 witness: extracting [2, 4] from a three-page document writes the
second page only, and extracting the full list [1..3] writes the source. -/
theorem C4_output_is_selected_pages_witness :
    ((trim_pdf ([10, 20, 30] : List Int) [2, 4] Fault.noFault "").written =
      some ((trim_pdf ([10, 20, 30] : List Int) [2, 4] Fault.noFault "").valid_pages.map
        (fun p => ([10, 20, 30] : List Int).getD (p - 1).toNat default))) ∧
    (trim_pdf ([10, 20, 30] : List Int)
      (fullRange ([10, 20, 30] : List Int).length) Fault.noFault "").written =
      some [10, 20, 30] :=
  ⟨(C4_output_is_selected_pages [10, 20, 30] [2, 4] "").1 (by decide),
   (C4_output_is_selected_pages ([10, 20, 30] : List Int) [2, 4] "").2 (by decide)⟩

/-- C5: when no requested page is in range, the extractor returns failure
with the exact message "No valid pages to include in the output PDF.",
empty included list, the whole request as the skipped list, and performs no
write at all (no completed write and no write attempt); no exception is
involved — the result is an ordinary return value. -/
theorem C5_all_out_of_range {α : Type} [Inhabited α] (source : List α)
    (pages : List Int) (emsg : String)
    (h : ∀ p ∈ pages, ¬(1 ≤ p ∧ p ≤ (source.length : Int))) :
    trim_pdf source pages Fault.noFault emsg =
      ⟨false, "No valid pages to include in the output PDF.", [], pages, none, false⟩ := by
  have hval : (pages.filter fun p => decide (1 ≤ p ∧ p ≤ (source.length : Int))) = [] := by
    refine List.filter_eq_nil_iff.mpr ?_
    intro p hp
    simp only [decide_eq_true_eq]
    exact h p hp
  have hinv : (pages.filter fun p => !decide (1 ≤ p ∧ p ≤ (source.length : Int))) = pages := by
    refine List.filter_eq_self.mpr ?_
    intro p hp
    simp only [Bool.not_eq_true', decide_eq_false_iff_not]
    exact h p hp
  simp only [trim_pdf, trimLoop_eq]
  rw [if_neg (by simp), if_neg (by simp), if_pos hval, hinv]

/-- C5 witness: requesting [100] against a two-page document. -/
theorem C5_all_out_of_range_witness :
    trim_pdf ([10, 20] : List Int) [100] Fault.noFault "" =
      ⟨false, "No valid pages to include in the output PDF.", [], [100], none, false⟩ :=
  C5_all_out_of_range [10, 20] [100] "" (by decide)

/-- C6: an I/O failure in any step — reading the source, copying a page
into the output, or writing the destination — is not propagated (the model
is a total function returning a result) but yields failure with empty page
lists and the message "Error processing PDF: " followed by the exception
text; and a failure while reading or constructing happens before the
destination is opened, so no write is attempted and no half-written
destination can exist.  The construct and write steps are only reached when
at least one valid page exists. -/
theorem C6_io_failures_are_returned {α : Type} [Inhabited α] (source : List α)
    (pages : List Int) (emsg : String) :
    trim_pdf source pages Fault.readFail emsg =
      ⟨false, "Error processing PDF: " ++ emsg, [], [], none, false⟩ ∧
    ((trimLoop source (source.length : Int) pages).2.1 ≠ [] →
      trim_pdf source pages Fault.constructFail emsg =
        ⟨false, "Error processing PDF: " ++ emsg, [], [], none, false⟩) ∧
    ((trimLoop source (source.length : Int) pages).2.1 ≠ [] →
      trim_pdf source pages Fault.writeFail emsg =
        ⟨false, "Error processing PDF: " ++ emsg, [], [], none, true⟩) := by
  refine ⟨rfl, ?_, ?_⟩
  · intro h
    simp [trim_pdf, h]
  · intro h
    simp [trim_pdf, h]

/-- C6 witness: the three failure modes against a one-page document with the
in-range request [1] and exception text "boom". -/
theorem C6_io_failures_are_returned_witness :
    trim_pdf ([7] : List Int) [1] Fault.readFail "boom" =
      ⟨false, "Error processing PDF: " ++ "boom", [], [], none, false⟩ ∧
    trim_pdf ([7] : List Int) [1] Fault.constructFail "boom" =
      ⟨false, "Error processing PDF: " ++ "boom", [], [], none, false⟩ ∧
    trim_pdf ([7] : List Int) [1] Fault.writeFail "boom" =
      ⟨false, "Error processing PDF: " ++ "boom", [], [], none, true⟩ :=
  ⟨(C6_io_failures_are_returned ([7] : List Int) [1] "boom").1,
   (C6_io_failures_are_returned ([7] : List Int) [1] "boom").2.1 (by decide),
   (C6_io_failures_are_returned ([7] : List Int) [1] "boom").2.2 (by decide)⟩
